import Mathlib

/-!
Verification of the entity-component runtime (`World`) of the `renderer`
repository, shallowly embedded from `src/ecs/world.rs`.

Modelling conventions:
* Rust's type erasure (`Box<dyn Any>` values keyed by `TypeId`) is embedded by
  a single universal value type `Val := List Nat` and `TypeId := Nat`; the
  checked downcasts of the source always succeed under the storage invariant,
  so they are invisible in the model.
* `hashbrown::HashMap` is embedded as an association list with unique keys by
  construction; map iteration order is irrelevant to every property proved
  here (only `destroy` iterates the outer map, and its per-storage removals
  commute).
* Event-handler callbacks and async-job callbacks are both `Box<dyn
  SystemCallback>` (closures `Fn(&mut World, &Ret)`) in the source.  They are
  defunctionalized into the closed inductive `SysCb`, interpreted by
  `runSysCb`.  A nested `on_event` publish inside a handler recurses through
  the interpreter, so the interpreter carries a fuel bound on publish nesting
  depth (the Rust original can likewise recurse without bound and overflow the
  stack; every property below holds for every fuel value that permits the
  dispatches it mentions).
* A pending `BoxFuture` is embedded as `FutState`: its observable behaviour
  under repeated non-blocking polls is "ready with value `v` after `n` more
  polls" or "never ready"; the source fuses the future, and completed entries
  are dropped, so this is a complete description of the poll interface used.
-/

/-- Rust `TypeId`, the key of component, resource and event tables. -/
abbrev TypeId := Nat

/-- The universal value type standing for all type-erased component, resource
and event payloads (`Box<dyn Any>` in the source). -/
abbrev Val := List Nat

/-- `Entity` from `src/ecs/world.rs` / `src/ecs/mod.rs`: a value type wrapping
a numeric identifier, compared by id. -/
structure Entity where
  id : Nat
deriving DecidableEq, Repr

/-- Association-list lookup: the value stored at key `t`, if any (models
`HashMap::get`). -/
def lookupA {α : Type} (t : TypeId) (l : List (TypeId × α)) : Option α :=
  (l.find? (fun p => p.1 = t)).map (fun p => p.2)

/-- Association-list insert-or-replace (models `HashMap::insert` for a table
whose keys are unique): any binding of `t` is dropped and the new binding
appended. -/
def setA {α : Type} (t : TypeId) (v : α) (l : List (TypeId × α)) : List (TypeId × α) :=
  l.filter (fun p => p.1 ≠ t) ++ [(t, v)]

/-- Association-list removal (models `HashMap::remove`). -/
def eraseA {α : Type} (t : TypeId) (l : List (TypeId × α)) : List (TypeId × α) :=
  l.filter (fun p => p.1 ≠ t)

/-- Modelled from the spec: the file `src/ecs/sparse_raw_vec.rs` (the
`SparseRawVec` per-component-type storage used by `world.rs`) is not in the
source tree.  Per spec §4.2 it is a sparse map from entity id to one
type-erased value, with insertion-ordered iteration; it exposes `insert`
(overwriting any existing value for that entity), `get`, `get_mut`, `remove`,
`contains` and iteration.  The entries are kept in insertion order. -/
structure SparseRawVec where
  data : List (Entity × Val)
deriving DecidableEq, Repr

namespace SparseRawVec

/-- Modelled from the spec: fresh empty storage (`SparseRawVec::new::<T>()`). -/
def new : SparseRawVec := ⟨[]⟩

/-- Modelled from the spec: `insert(entity, value)` overwrites any existing
value for that entity for that type; the (re-)inserted entry takes the newest
insertion-order position. -/
def insert (e : Entity) (v : Val) (s : SparseRawVec) : SparseRawVec :=
  ⟨s.data.filter (fun p => p.1 ≠ e) ++ [(e, v)]⟩

/-- Modelled from the spec: `get(entity) -> Option<&T>`. -/
def get (e : Entity) (s : SparseRawVec) : Option Val :=
  (s.data.find? (fun p => p.1 = e)).map (fun p => p.2)

/-- Modelled from the spec: `remove(entity)` deletes the entry, reporting
"not present" silently when absent. -/
def remove (e : Entity) (s : SparseRawVec) : SparseRawVec :=
  ⟨s.data.filter (fun p => p.1 ≠ e)⟩

/-- Modelled from the spec: `contains(entity) -> bool`. -/
def contains (e : Entity) (s : SparseRawVec) : Bool :=
  s.data.any (fun p => p.1 = e)

/-- Modelled from the spec: insertion-ordered iteration producing
`(Entity, &T)` pairs. -/
def iter (s : SparseRawVec) : List (Entity × Val) :=
  s.data

end SparseRawVec

/-- The eventual behaviour of a pending `BoxFuture<'static, Box<dyn Any>>`
under repeated non-blocking polls: ready with `value` after `remaining` more
polls, or (`remaining = none`) never ready. -/
structure FutState where
  remaining : Option Nat
  value : Val
deriving DecidableEq, Repr

/-- Result of one non-blocking poll (`futures::poll!`). -/
inductive PollResult where
  | ready (v : Val)
  | pend (f : FutState)
deriving DecidableEq, Repr

/-- One non-blocking poll of a pending future. -/
def pollFut (f : FutState) : PollResult :=
  match f.remaining with
  | none => .pend f
  | some 0 => .ready f.value
  | some (k + 1) => .pend ⟨some k, f.value⟩

/-- Defunctionalized `SystemCallback` (`Fn(&mut World, &Ret)` closures): the
actions a registered event handler or async-job completion callback can take
on the world it is handed.  `log` records the invocation (tag and received
payload) in a dedicated resource, `addHandler` registers an event handler,
`publish` raises a nested event, `enqueue` schedules an async job, `seq`/`skip`
compose. -/
inductive SysCb where
  | skip
  | log (tag : Nat)
  | addHandler (t : TypeId) (c : SysCb)
  | publish (t : TypeId) (v : Val)
  | enqueue (fut : FutState) (c : SysCb)
  | seq (a b : SysCb)
deriving DecidableEq, Repr

/-- `World` from `src/ecs/world.rs`: component storages keyed by component
type, resource singletons keyed by resource type, the entity-id counter, the
pending async-job queue, and the event-handler table keyed by event type. -/
structure World where
  components : List (TypeId × SparseRawVec)
  resources : List (TypeId × Val)
  entities : Nat
  pending : List (FutState × SysCb)
  event_handlers : List (TypeId × List SysCb)
deriving DecidableEq, Repr

namespace World

/-- `World::new()`. -/
def new : World :=
  ⟨[], [], 0, [], []⟩

/-- `World::spawn()` without the builder wrapper: returns the fresh entity
(id = current counter) and the world with the counter incremented. -/
def spawn (w : World) : Entity × World :=
  (⟨w.entities⟩, { w with entities := w.entities + 1 })

/-- `World::destroy(entity)`: removes the entity's instance from every
registered component storage, touching nothing else. -/
def destroy (e : Entity) (w : World) : World :=
  { w with components := w.components.map (fun p => (p.1, p.2.remove e)) }

/-- `World::add_component::<T>(entity, component)`: fetches the per-type
storage, creating it on first use, then inserts. -/
def add_component (t : TypeId) (e : Entity) (v : Val) (w : World) : World :=
  let vec := (lookupA t w.components).getD SparseRawVec.new
  { w with components := setA t (vec.insert e v) w.components }

/-- `World::component::<T>(entity)`: looks up the per-type storage with `?`
(short-circuiting to `None` when absent) and then the entity's entry. -/
def component (t : TypeId) (e : Entity) (w : World) : Option Val :=
  (lookupA t w.components).bind (fun s => s.get e)

/-- `World::component_mut::<T>(entity)`: same lookup path as `component`
(`get_mut` then `get_mut`), modelled by the value it lends mutably. -/
def component_mut (t : TypeId) (e : Entity) (w : World) : Option Val :=
  (lookupA t w.components).bind (fun s => s.get e)

/-- `World::components::<T>()`: `self.components.get(&component_type)
.unwrap().iter()`.  The `unwrap` panics when no storage for the type exists;
the panic is modelled as `none`, a produced iterator as `some` of its
elements. -/
def components_iter (t : TypeId) (w : World) : Option (List (Entity × Val)) :=
  (lookupA t w.components).map (fun s => s.iter)

/-- `World::has_component::<T>(entity)`: `contains` on the per-type storage,
`false` when no storage exists. -/
def has_component (t : TypeId) (e : Entity) (w : World) : Bool :=
  match lookupA t w.components with
  | some s => s.contains e
  | none => false

/-- Modelled from the spec: the file `src/ecs/query.rs` (the `Query` trait
used by `world.rs`) is not in the source tree.  Per spec §4.3 a query names a
set of component types and `Q::matches(world, entity)` holds exactly when the
entity carries every component type named in `Q`; a query is embedded as the
list of component types it names. -/
def queryMatches (q : List TypeId) (w : World) (e : Entity) : Bool :=
  q.all (fun t => w.has_component t e)

/-- `World::query::<T>()`: `(0..self.entities).map(|x| Entity { id: x })
.filter(|&x| T::matches(self, x))`, materialized as the list the iterator
yields. -/
def query (q : List TypeId) (w : World) : List Entity :=
  ((List.range w.entities).map Entity.mk).filter (queryMatches q w)

/-- `World::add_resource::<T>(resource)`: `HashMap::insert`, replacing any
existing singleton of that type. -/
def add_resource (t : TypeId) (v : Val) (w : World) : World :=
  { w with resources := setA t v w.resources }

/-- `World::resource::<T>()`: the stored singleton, `None` when absent (the
`RefCell` borrow is modelled by the value it lends). -/
def resource (t : TypeId) (w : World) : Option Val :=
  lookupA t w.resources

/-- `World::take_resource::<T>()`: `self.resources.remove(..)?`, returning
the owned value (if any) together with the world it leaves behind. -/
def take_resource (t : TypeId) (w : World) : Option Val × World :=
  match lookupA t w.resources with
  | some v => (some v, { w with resources := eraseA t w.resources })
  | none => (none, w)

/-- `World::async_job(func, callback)`: the already-constructed future and
the callback are pushed at the tail of the pending queue. -/
def async_job (fut : FutState) (c : SysCb) (w : World) : World :=
  { w with pending := w.pending ++ [(fut, c)] }

/-- The list of handlers a table holds for event type `t`
(`event_handlers.get(&event_type)`, empty when absent). -/
def handlersFor (t : TypeId) (tbl : List (TypeId × List SysCb)) : List SysCb :=
  (lookupA t tbl).getD []

/-- `World::add_event_handler::<EventT>(callback)`: appends to the ordered
handler list for the event type, creating the list on first registration. -/
def add_event_handler (t : TypeId) (c : SysCb) (w : World) : World :=
  { w with event_handlers := setA t (handlersFor t w.event_handlers ++ [c]) w.event_handlers }

end World

/-- The resource type under which `SysCb.log` records invocations. -/
def logType : TypeId := 1000

/-- Interpreter for a `SystemCallback` closure invoked as
`callback.call(world, payload)`, parameterized by the meaning `recPub` of a
nested `on_event` publish (tied at `runSysCb`/`onEvent` below). -/
def runSysCbAux (recPub : TypeId → Val → World → World) : SysCb → World → Val → World
  | .skip, w, _ => w
  | .log tag, w, v =>
      w.add_resource logType (((w.resource logType).getD []) ++ tag :: v)
  | .addHandler t c, w, _ => w.add_event_handler t c
  | .publish t pv, w, _ => recPub t pv w
  | .enqueue fut c, w, _ => w.async_job fut c
  | .seq a b, w, v => runSysCbAux recPub b (runSysCbAux recPub a w v) v

/-- The dispatch loop of `on_event`: invoke each callback in order, each with
mutable access to the world left by its predecessor. -/
def runHandlerListAux (run1 : SysCb → World → Val → World) : List SysCb → World → Val → World
  | [], w, _ => w
  | c :: rest, w, v => runHandlerListAux run1 rest (run1 c w v) v

/-- `World::on_event::<EventT>(event)` at publish-nesting depth `fuel + 1`:
the whole handler table is swapped out into a local before any handler runs,
the handlers registered for the event type are invoked in registration order
(each able to publish nested events at depth `fuel`), and the swap at the end
puts the original table back (discarding whatever the live table accumulated
during dispatch).  Depth `0` marks fuel exhaustion and does nothing; the Rust
original recurses without bound instead, so every statement below concerns
dispatches at a positive depth. -/
def onEvent : Nat → TypeId → Val → World → World
  | 0, _, _, w => w
  | fuel + 1, t, v, w =>
      let saved := w.event_handlers
      let dispatched :=
        runHandlerListAux (runSysCbAux (onEvent fuel))
          (World.handlersFor t saved) { w with event_handlers := [] } v
      { dispatched with event_handlers := saved }

/-- A `SystemCallback` invocation whose nested publishes dispatch at depth
`fuel`. -/
def runSysCb (fuel : Nat) : SysCb → World → Val → World :=
  runSysCbAux (onEvent fuel)

/-- The body of `World::update`: iterate over the entries taken from the
pending queue; a ready poll runs the callback with the resolved value, a
not-ready poll re-queues the entry at the tail of the live (new) queue. -/
def updateLoop : Nat → List (FutState × SysCb) → World → World
  | _, [], w => w
  | fuel, (fut, c) :: rest, w =>
      match pollFut fut with
      | .ready v => updateLoop fuel rest (runSysCb fuel c w v)
      | .pend fut2 => updateLoop fuel rest { w with pending := w.pending ++ [(fut2, c)] }

/-- `World::update()`: swaps the full pending queue out, then polls each
taken entry exactly once. -/
def update (fuel : Nat) (w : World) : World :=
  updateLoop fuel w.pending { w with pending := [] }

/-- `n` consecutive calls of `World::update()`. -/
def updateN (fuel : Nat) : Nat → World → World
  | 0, w => w
  | n + 1, w => updateN fuel n (update fuel w)

/-- Observer: how many instances of component type `t` are attached to
entity `e` (the data-model invariant demands at most one). -/
def instancesOn (t : TypeId) (e : Entity) (w : World) : Nat :=
  match lookupA t w.components with
  | some s => (s.data.filter (fun p => p.1 = e)).length
  | none => 0

/-! ### Association-list and storage lemmas -/

theorem find?_filter_ne {K α : Type} [DecidableEq K] (k : K) (l : List (K × α)) :
    (l.filter (fun p => p.1 ≠ k)).find? (fun p => p.1 = k) = none := by
  rw [List.find?_eq_none]
  intro x hx
  rw [List.mem_filter] at hx
  simpa using hx.2

theorem lookupA_setA_self {α : Type} (t : TypeId) (v : α) (l : List (TypeId × α)) :
    lookupA t (setA t v l) = some v := by
  unfold lookupA setA
  rw [List.find?_append, find?_filter_ne]
  simp [List.find?]

theorem lookupA_eraseA_self {α : Type} (t : TypeId) (l : List (TypeId × α)) :
    lookupA t (eraseA t l) = none := by
  unfold lookupA eraseA
  rw [find?_filter_ne]
  rfl

/-! ### C1: reads against a never-inserted component type -/

/-- C1, counterexample: in a fresh world, the component type `0` was never
inserted for any entity, yet the bulk iteration `components::<T>()` does not
yield an empty sequence — it panics on the `unwrap` of the absent per-type
storage (the panic is modelled as `none`). -/
theorem components_iter_absent_faults : World.new.components_iter 0 ≠ some [] := by
  decide

/-- C1, amended: when no per-type storage for `T` exists (in particular when
`T` was never inserted for any entity), `component`, `component_mut` return
`None` for every entity and `has_component` returns `false`; but
`components::<T>()` panics on the absent storage instead of yielding an empty
sequence. -/
theorem absent_storage_reads (w : World) (t : TypeId) (e : Entity)
    (h : lookupA t w.components = none) :
    w.component t e = none ∧ w.component_mut t e = none ∧
    w.has_component t e = false ∧ w.components_iter t = none := by
  simp [World.component, World.component_mut, World.has_component,
    World.components_iter, h]

/-- C1 witness: the amended statement instantiated at the fresh world,
component type `0` and entity `0`. -/
theorem absent_storage_reads_witness :
    World.new.component 0 ⟨0⟩ = none ∧ World.new.component_mut 0 ⟨0⟩ = none ∧
    World.new.has_component 0 ⟨0⟩ = false ∧ World.new.components_iter 0 = none :=
  absent_storage_reads World.new 0 ⟨0⟩ rfl

/-! ### C8: resource replacement and consumption -/

/-- C8: after `add_resource(v1)` then `add_resource(v2)` for the same
resource type, `resource` yields `v2`; `take_resource` then returns `v2` by
ownership transfer, and afterwards both `resource` and a second
`take_resource` return `None`. -/
theorem resource_replace_take (w : World) (t : TypeId) (v1 v2 : Val) :
    ((w.add_resource t v1).add_resource t v2).resource t = some v2 ∧
    (((w.add_resource t v1).add_resource t v2).take_resource t).1 = some v2 ∧
    ((((w.add_resource t v1).add_resource t v2).take_resource t).2).resource t = none ∧
    (((((w.add_resource t v1).add_resource t v2).take_resource t).2).take_resource t).1 = none := by
  simp [World.resource, World.add_resource, World.take_resource,
    lookupA_setA_self, lookupA_eraseA_self]

/-! ### Sparse-storage lemmas -/

theorem sv_get_insert_self (s : SparseRawVec) (e : Entity) (v : Val) :
    (s.insert e v).get e = some v := by
  unfold SparseRawVec.insert SparseRawVec.get
  rw [List.find?_append, find?_filter_ne]
  simp [List.find?]

theorem sv_filter_insert_eq (s : SparseRawVec) (e : Entity) (v : Val) :
    (s.insert e v).data.filter (fun p => p.1 = e) = [(e, v)] := by
  unfold SparseRawVec.insert
  rw [List.filter_append, List.filter_filter]
  simp

theorem sv_get_remove_self (s : SparseRawVec) (e : Entity) :
    (s.remove e).get e = none := by
  unfold SparseRawVec.remove SparseRawVec.get
  rw [find?_filter_ne]
  rfl

theorem sv_remove_idem (s : SparseRawVec) (e : Entity) :
    (s.remove e).remove e = s.remove e := by
  unfold SparseRawVec.remove
  simp [List.filter_filter]

theorem sv_remove_of_not_contains (s : SparseRawVec) (e : Entity)
    (h : s.contains e = false) : s.remove e = s := by
  unfold SparseRawVec.contains at h
  rw [List.any_eq_false] at h
  unfold SparseRawVec.remove
  cases s with
  | mk data =>
      congr 1
      refine List.filter_eq_self.mpr (fun a ha => ?_)
      simpa using h a ha

theorem lookupA_map_value {α β : Type} (g : α → β) (t : TypeId) :
    ∀ l : List (TypeId × α),
      lookupA t (l.map (fun p => (p.1, g p.2))) = (lookupA t l).map g
  | [] => rfl
  | hd :: tl => by
      by_cases h : hd.1 = t
      · simp [lookupA, List.find?_cons, h]
      · simpa [lookupA, List.find?_cons, h] using lookupA_map_value g t tl

/-! ### C4: add_component overwrites -/

/-- C4: `add_component::<T>(e, v2)` after `add_component::<T>(e, v1)`
overwrites the earlier value: exactly one instance of `T` is attached to `e`
and `component::<T>(e)` returns `v2`. -/
theorem add_component_overwrite (w : World) (t : TypeId) (e : Entity) (v1 v2 : Val) :
    ((w.add_component t e v1).add_component t e v2).component t e = some v2 ∧
    instancesOn t e ((w.add_component t e v1).add_component t e v2) = 1 := by
  constructor
  · simp [World.add_component, World.component, lookupA_setA_self, sv_get_insert_self]
  · simp [World.add_component, instancesOn, lookupA_setA_self, sv_filter_insert_eq]

/-! ### C9: destroy -/

/-- C9: after `destroy(e)` the entity has no component of any type;
destroying again is a no-op, destroying an entity held by no storage (in
particular one that was never spawned) is a no-op, and `destroy` never
touches resources, event handlers, the pending queue or the entity
counter. -/
theorem destroy_spec (w : World) (e : Entity) :
    (∀ t, (w.destroy e).component t e = none) ∧
    (w.destroy e).destroy e = w.destroy e ∧
    ((∀ p ∈ w.components, p.2.contains e = false) → w.destroy e = w) ∧
    (w.destroy e).resources = w.resources ∧
    (w.destroy e).event_handlers = w.event_handlers ∧
    (w.destroy e).entities = w.entities ∧
    (w.destroy e).pending = w.pending := by
  refine ⟨fun t => ?_, ?_, fun h => ?_, rfl, rfl, rfl, rfl⟩
  · unfold World.destroy World.component
    rw [lookupA_map_value]
    cases hl : lookupA t w.components with
    | none => rfl
    | some s => simp [sv_get_remove_self]
  · unfold World.destroy
    simp only [List.map_map]
    congr 1
    exact List.map_congr_left (fun a _ => by simp [Function.comp, sv_remove_idem])
  · unfold World.destroy
    have hmap : w.components.map (fun p => (p.1, p.2.remove e)) = w.components := by
      conv_rhs => rw [← List.map_id w.components]
      exact List.map_congr_left (fun a ha => by
        simp [sv_remove_of_not_contains a.2 e (h a ha)])
    rw [hmap]

/-- C9 witness: destroying entity `0` in a world where it carries component
type `0` clears that component; destroying entity `1`, which no storage
holds, is a no-op on that world. -/
theorem destroy_spec_witness :
    ((World.new.add_component 0 ⟨0⟩ [7]).destroy ⟨0⟩).component 0 ⟨0⟩ = none ∧
    (World.new.add_component 0 ⟨0⟩ [7]).destroy ⟨1⟩ = World.new.add_component 0 ⟨0⟩ [7] :=
  ⟨(destroy_spec (World.new.add_component 0 ⟨0⟩ [7]) ⟨0⟩).1 0,
   (destroy_spec (World.new.add_component 0 ⟨0⟩ [7]) ⟨1⟩).2.2.1 (by decide)⟩

/-! ### C3: query -/

/-- C3: `query::<Q>()` yields exactly the entities with id below the current
entity counter that carry every component type named in `Q`, in ascending id
order. -/
theorem query_spec (w : World) (q : List TypeId) :
    (∀ e : Entity, e ∈ w.query q ↔ e.id < w.entities ∧ World.queryMatches q w e = true) ∧
    (w.query q).Pairwise (fun a b => a.id < b.id) := by
  constructor
  · intro e
    unfold World.query
    rw [List.mem_filter]
    constructor
    · rintro ⟨hmem, hmatch⟩
      rw [List.mem_map] at hmem
      obtain ⟨m, hm, rfl⟩ := hmem
      exact ⟨List.mem_range.mp hm, hmatch⟩
    · rintro ⟨hlt, hmatch⟩
      exact ⟨List.mem_map.mpr ⟨e.id, List.mem_range.mpr hlt, rfl⟩, hmatch⟩
  · exact List.Pairwise.filter _
      (List.Pairwise.map Entity.mk (fun a b h => h) (List.pairwise_lt_range w.entities))

/-! ### Event-table lemmas -/

theorem find?_filter_of_imp {α : Type} (p q : α → Bool)
    (himp : ∀ a, p a = true → q a = true) :
    ∀ l : List α, (l.filter q).find? p = l.find? p
  | [] => rfl
  | hd :: tl => by
      by_cases hq : q hd = true
      · rw [List.filter_cons_of_pos hq]
        rw [List.find?_cons, List.find?_cons]
        cases hp : p hd
        · simpa using find?_filter_of_imp p q himp tl
        · rfl
      · have hp : p hd = false := by
          cases hpp : p hd
          · rfl
          · exact absurd (himp hd hpp) hq
        rw [List.filter_cons_of_neg hq, List.find?_cons, hp]
        exact find?_filter_of_imp p q himp tl

theorem lookupA_setA_ne {α : Type} (t t2 : TypeId) (v : α) (h : t ≠ t2)
    (l : List (TypeId × α)) : lookupA t (setA t2 v l) = lookupA t l := by
  unfold lookupA setA
  rw [List.find?_append]
  rw [find?_filter_of_imp (fun p => p.1 = t) (fun p => p.1 ≠ t2)
    (fun a ha => by
      simp only [decide_eq_true_eq] at ha
      simpa using ha ▸ h) l]
  have h2 : List.find? (fun p => p.1 = t) [(t2, v)] = none := by
    rw [List.find?_cons]
    simp [Ne.symm h]
  rw [h2]
  cases List.find? (fun p => p.1 = t) l <;> rfl

theorem handlersFor_add_self (w : World) (t : TypeId) (c : SysCb) :
    World.handlersFor t (w.add_event_handler t c).event_handlers
      = World.handlersFor t w.event_handlers ++ [c] := by
  unfold World.add_event_handler World.handlersFor
  rw [lookupA_setA_self]
  rfl

theorem handlersFor_add_ne (w : World) (t t2 : TypeId) (c : SysCb) (h : t ≠ t2) :
    World.handlersFor t (w.add_event_handler t2 c).event_handlers
      = World.handlersFor t w.event_handlers := by
  unfold World.add_event_handler World.handlersFor
  rw [lookupA_setA_ne t t2 _ h]

theorem onEvent_event_handlers (fuel : Nat) (t : TypeId) (v : Val) (w : World) :
    (onEvent fuel t v w).event_handlers = w.event_handlers := by
  cases fuel with
  | zero => rfl
  | succ f => rfl

/-! ### C2: persistence of handler registrations -/

/-- C2, counterexample: a handler that registers a new handler (`log 9` for
type `3`) while it runs inside a dispatch of type `3`.  After the dispatch
completes, the handler table holds only the original handler — the nested
registration was discarded by the swap at the end of `on_event` — and a
subsequent publish of type `3` never invokes `log 9` (the invocation log
stays empty). -/
theorem nested_registration_lost :
    World.handlersFor 3 (onEvent 5 3 []
        (World.new.add_event_handler 3 (.addHandler 3 (.log 9)))).event_handlers
      = [.addHandler 3 (.log 9)] ∧
    (onEvent 5 3 [] (onEvent 5 3 []
        (World.new.add_event_handler 3 (.addHandler 3 (.log 9))))).resource logType
      = none := by
  exact ⟨rfl, rfl⟩

/-- C2, amended: a handler registered while no dispatch is in progress stays
registered: `add_event_handler` only appends, and `on_event` leaves the
handler table exactly as it found it.  (A registration performed *during* a
dispatch, by contrast, is discarded when the dispatch completes — see the
counterexample.) -/
theorem handler_registration_persists (w : World) (t : TypeId) (c : SysCb)
    (hmem : c ∈ World.handlersFor t w.event_handlers) :
    (∀ t2 c2, c ∈ World.handlersFor t (w.add_event_handler t2 c2).event_handlers) ∧
    (∀ fuel t2 v, c ∈ World.handlersFor t (onEvent fuel t2 v w).event_handlers) := by
  constructor
  · intro t2 c2
    by_cases h : t = t2
    · subst h
      rw [handlersFor_add_self]
      exact List.mem_append_left _ hmem
    · rw [handlersFor_add_ne w t t2 c2 h]
      exact hmem
  · intro fuel t2 v
    unfold World.handlersFor
    rw [onEvent_event_handlers]
    exact hmem

/-- C2 witness: a handler registered for type `3` outside any dispatch is
still registered after a registration for type `4` and after a full dispatch
of type `3`. -/
theorem handler_registration_persists_witness :
    SysCb.skip ∈ World.handlersFor 3
      ((World.new.add_event_handler 3 .skip).add_event_handler 4 (.log 1)).event_handlers ∧
    SysCb.skip ∈ World.handlersFor 3
      (onEvent 2 3 [] (World.new.add_event_handler 3 .skip)).event_handlers :=
  ⟨(handler_registration_persists (World.new.add_event_handler 3 .skip) 3 .skip
      (by decide)).1 4 (.log 1),
   (handler_registration_persists (World.new.add_event_handler 3 .skip) 3 .skip
      (by decide)).2 2 3 []⟩

/-! ### C6: nested publishes during a dispatch -/

/-- C6, counterexample: the single handler for type `3` first registers a new
handler (`log 7`) for `3` and then publishes a nested event of type `3`.  The
nested publish finds the just-registered handler in the live table and
invokes it — one handler invocation, not zero, for the nested publish (the
invocation log records the tag `7`). -/
theorem nested_publish_invokes_registered :
    (onEvent 5 3 []
        (World.new.add_event_handler 3
          (.seq (.addHandler 3 (.log 7)) (.publish 3 [])))).resource logType
      = some [7] :=
  rfl

/-- C6, amended: a nested publish never invokes a handler from the table
that was live when the outer dispatch began (that table was swapped out
whole); it can only invoke handlers registered during the current dispatch.
In particular, as long as no handler has registered a new handler for the
published type during the dispatch — so the live table holds no handler for
it, as at the start of every dispatch — a publish of that type invokes zero
handlers and leaves the world entirely unchanged. -/
theorem publish_no_live_handlers_noop (fuel : Nat) (t : TypeId) (v : Val) (w : World)
    (h : World.handlersFor t w.event_handlers = []) :
    onEvent fuel t v w = w := by
  cases fuel with
  | zero => rfl
  | succ f =>
      simp only [onEvent, h, runHandlerListAux]

/-- C6 witness: the amended statement at a world whose handler table was
swapped out by an in-progress dispatch (no handlers for type `3` are live,
though one for type `4` is): the publish invokes nothing and changes
nothing. -/
theorem publish_no_live_handlers_noop_witness :
    onEvent 4 3 [] (World.new.add_event_handler 4 (.log 1))
      = World.new.add_event_handler 4 (.log 1) :=
  publish_no_live_handlers_noop 4 3 [] (World.new.add_event_handler 4 (.log 1)) rfl

/-! ### C7: dispatch in registration order -/

/-- C7: registering `h1` then `h2` for event type `t` (no dispatch in
progress, no earlier handlers for `t`) and then publishing one event of type
`t` invokes `h1` first and then `h2`, each exactly once: the dispatch is
precisely the sequential composition of the two handler bodies — `h1` on the
world with the table swapped out, then `h2` on `h1`'s result — after which
the handler table is restored. -/
theorem dispatch_registration_order (fuel : Nat) (t : TypeId) (v : Val) (w : World)
    (h1 h2 : SysCb) (h : World.handlersFor t w.event_handlers = []) :
    onEvent (fuel + 1) t v ((w.add_event_handler t h1).add_event_handler t h2)
      = { runSysCb fuel h2 (runSysCb fuel h1 { w with event_handlers := [] } v) v
          with event_handlers :=
            ((w.add_event_handler t h1).add_event_handler t h2).event_handlers } := by
  have hh : World.handlersFor t
      ((w.add_event_handler t h1).add_event_handler t h2).event_handlers = [h1, h2] := by
    rw [handlersFor_add_self, handlersFor_add_self, h]
    rfl
  simp only [onEvent, hh, runHandlerListAux, runSysCb]
  rfl

/-- C7 witness: with logging handlers `log 1` and `log 2` registered in that
order for type `3`, publishing one event records the invocations `[1, 2]` —
`h1` before `h2`, once each. -/
theorem dispatch_registration_order_witness :
    (onEvent 1 3 []
        ((World.new.add_event_handler 3 (.log 1)).add_event_handler 3 (.log 2))).resource
      logType = some [1, 2] := by
  rw [dispatch_registration_order 0 3 [] World.new (.log 1) (.log 2) rfl]
  rfl

/-! ### C5: async jobs across update ticks -/

/-- C5: a job whose computation is already resolved has its callback invoked
exactly once — with mutable world access and the resolved value — by the next
`update()`; a job whose computation never resolves is still in the pending
queue after any number `n` of updates with its callback never invoked and the
world otherwise untouched; and each tick polls a pending computation exactly
once (a computation `k + 1` polls from ready is `k` polls from ready after
one tick). -/
theorem async_job_update_spec (fuel : Nat) (w : World) (v : Val) (cb : SysCb) :
    (update fuel (World.async_job ⟨some 0, v⟩ cb { w with pending := [] })
      = runSysCb fuel cb { w with pending := [] } v) ∧
    (∀ n, updateN fuel n (World.async_job ⟨none, v⟩ cb { w with pending := [] })
      = { w with pending := [(⟨none, v⟩, cb)] }) ∧
    (∀ k, update fuel (World.async_job ⟨some (k + 1), v⟩ cb { w with pending := [] })
      = { w with pending := [(⟨some k, v⟩, cb)] }) := by
  refine ⟨rfl, fun n => ?_, fun k => rfl⟩
  induction n with
  | zero => rfl
  | succ n ih =>
      simp only [updateN]
      exact ih

/-! ### C10: jobs enqueued during an update tick -/

/-- C10: a job enqueued by a completion callback while `update()` runs is
not polled during that same call — it survives the tick with its computation
in its original state (`fut2` untouched, for arbitrary `fut2`) — and it is
first polled on the next `update()`, which (for an immediately-ready
computation) then invokes its callback. -/
theorem enqueue_during_update_not_polled (fuel : Nat) (w : World) (v v2 : Val)
    (fut2 : FutState) (cb2 : SysCb) :
    (update fuel { w with pending := [(⟨some 0, v⟩, .enqueue fut2 cb2)] }
      = { w with pending := [(fut2, cb2)] }) ∧
    (update fuel (update fuel
        { w with pending := [(⟨some 0, v⟩, .enqueue ⟨some 0, v2⟩ cb2)] })
      = runSysCb fuel cb2 { w with pending := [] } v2) :=
  ⟨rfl, rfl⟩
